import Mathlib

/-!
Verification of the VXI-11 / SCPI transport core of the testeq library.

Each definition below is a shallow embedding of a function or type of the
Rust source; the source file and item are named in the doc comment.
Conventions:
* Rust `u8` bytes are modelled as `Nat` (values produced are < 256).
* Rust `u32` is modelled as `Nat` (packing truncates mod 2^32 exactly where
  the source performs an `as u32` cast); `i32` is modelled as `Int`.
* A `&mut Vec<u8>` decode buffer is modelled by explicit state passing: a
  decoder takes the buffer and returns its result together with the buffer
  that remains after the call.
* A Rust panic (e.g. `Vec::drain` with an out-of-range end, or
  `try_into().unwrap()` on a slice of the wrong length) is modelled by the
  `PanicOr.panicked` constructor.
* `f32`/`f64` arithmetic is modelled as exact rational arithmetic (`ℚ`);
  the facts proved about it below are integer-scale facts that do not
  depend on rounding.
-/

namespace TestEq

/-- A Rust `u8` value. -/
abbrev Byte := Nat

/-- Model of `Error` from `src/src/error.rs`, plus the `InvalidArgument` variant that
`src/src/protocol/scpi.rs` constructs (the enum as used by the code).
`Unhandled` and `IoError` payloads (foreign error objects) are dropped. -/
inductive Err where
  | Unspecified : String → Err
  | Unimplemented : String → Err
  | Unhandled : Err
  | IoError : Err
  | BadResponse : String → Err
  | NotSupported : String → Err
  | Timeout : String → Err
  | InvalidArgument : String → Err
deriving Repr, DecidableEq

/-- Returns `true` exactly on `Err.InvalidArgument`. -/
def Err.isInvalidArg : Err → Bool
  | .InvalidArgument _ => true
  | _ => false

/-- Returns `true` exactly on `Err.BadResponse`. -/
def Err.isBadResp : Err → Bool
  | .BadResponse _ => true
  | _ => false

/-- Result of running Rust code that may panic: `panicked` models a panic,
`value a` a normal return of `a`. -/
inductive PanicOr (α : Type) where
  | panicked : PanicOr α
  | value : α → PanicOr α
deriving Repr, DecidableEq

/-! ## XDR codec — `src/src/protocol/vxi11/xdr.rs` -/

/-- Model of `u32::to_be_bytes` (with the value first truncated to 32 bits, modelling
`as u32` casts at call sites; for a genuine `u32` the `% 2^32` is the
identity). -/
def u32BeBytes (x : Nat) : List Byte :=
  let y := x % 4294967296
  [y / 16777216, y / 65536 % 256, y / 256 % 256, y % 256]

/-- Model of `u32::from_be_bytes`. -/
def beU32 (b0 b1 b2 b3 : Byte) : Nat :=
  ((b0 * 256 + b1) * 256 + b2) * 256 + b3

/-- Two's-complement representative of an `i32` as a `Nat` (`x as u32`). -/
def toTwos32 (x : Int) : Nat := (x % 4294967296).toNat

/-- Model of `i32::from_be_bytes`: the signed value of a 32-bit big-endian word. -/
def beI32 (b0 b1 b2 b3 : Byte) : Int :=
  let u := beU32 b0 b1 b2 b3
  if u < 2147483648 then (u : Int) else (u : Int) - 4294967296

/-- Model of `impl XdrPack for u32`: append the big-endian bytes to `out`. -/
def packU32 (x : Nat) (out : List Byte) : List Byte := out ++ u32BeBytes x

/-- Model of `impl XdrPack for i32`: append the big-endian bytes to `out`. -/
def packI32 (x : Int) (out : List Byte) : List Byte := out ++ u32BeBytes (toTwos32 x)

/-- Model of `impl XdrPack for bool`: `(self as u32).pack_xdr(out)`. -/
def packBool (b : Bool) (out : List Byte) : List Byte :=
  packU32 (if b then 1 else 0) out

/-- Model of `impl XdrPack for Vec<u8>` (`pack_xdr`): length prefix (`len as u32`),
the bytes, then zero padding to a multiple of 4. -/
def packOpaqueData (v : List Byte) (out : List Byte) : List Byte :=
  let len := v.length
  let out1 := packU32 len out
  let out2 := out1 ++ v
  if len % 4 ≠ 0 then out2 ++ List.replicate (4 - len % 4) 0 else out2

/-- Model of `impl XdrPack for String`: `self.into_bytes().pack_xdr(out)`; the Rust
`String` is modelled by its UTF-8 byte sequence. -/
def packString (s : List Byte) (out : List Byte) : List Byte := packOpaqueData s out

/-- Model of `unpack_u32`: `src.drain(0..4)` panics when the buffer holds fewer than
4 bytes (so the `BadResponse("Not enough bytes to read u32")` branch of the
source is unreachable); otherwise the four drained bytes are decoded
big-endian.  Returns the result together with the remaining buffer. -/
def unpack_u32 : List Byte → PanicOr (Except Err Nat × List Byte)
  | b0 :: b1 :: b2 :: b3 :: rest => .value (.ok (beU32 b0 b1 b2 b3), rest)
  | _ => .panicked

/-- Model of `unpack_i32`: as `unpack_u32`, decoding signed. -/
def unpack_i32 : List Byte → PanicOr (Except Err Int × List Byte)
  | b0 :: b1 :: b2 :: b3 :: rest => .value (.ok (beI32 b0 b1 b2 b3), rest)
  | _ => .panicked

/-- Model of `unpack_u16`: drains 4 bytes (panicking when fewer are present), decodes
a `u32`, then `try_into::<u16>()`, rejecting values above `0xFFFF`. -/
def unpack_u16 : List Byte → PanicOr (Except Err Nat × List Byte)
  | b0 :: b1 :: b2 :: b3 :: rest =>
    let val := beU32 b0 b1 b2 b3
    .value
      (if val ≤ 65535 then .ok val
       else .error (.BadResponse "Value does not represent a 16-bit value"), rest)
  | _ => .panicked

/-- Padding bytes after an opaque payload of length `len`
(`if !length.is_multiple_of(4) { 4 - (length % 4) } else { 0 }`). -/
def padOf (len : Nat) : Nat := if len % 4 ≠ 0 then 4 - len % 4 else 0

/-- Model of `unpack_opaque` from `xdr.rs`: reads the `u32` length prefix, computes
the padding, errors with `BadResponse` when the buffer is shorter than
payload + padding (the prefix stays consumed), else drains payload and
padding. -/
def unpackOpaqueData (src : List Byte) : PanicOr (Except Err (List Byte) × List Byte) :=
  match unpack_u32 src with
  | .panicked => .panicked
  | .value (.error e, rest) => .value (.error e, rest)
  | .value (.ok length, rest) =>
    let padding := padOf length
    if rest.length < length + padding then
      .value (.error (.BadResponse "Not enough bytes to read opaque type"), rest)
    else
      .value (.ok (rest.take length), (rest.drop length).drop padding)

/-- Big-endian value of the first four bytes of a buffer (what
`unpack_u32` returns on it when it has at least four bytes). -/
def declaredLenOf (src : List Byte) : Nat :=
  beU32 (src.getD 0 0) (src.getD 1 0) (src.getD 2 0) (src.getD 3 0)

/-! ## VXI-11 RPC types — `src/src/protocol/vxi11/rpc.rs` -/

/-- Model of `RpcRequest`: the VXI-11 core-channel procedure numbers. -/
inductive RpcRequest where
  | DeviceAbort | CreateLink | DeviceWrite | DeviceRead | DeviceReadStb
  | DeviceTrigger | DeviceClear | DeviceError | DeviceLocal | DeviceLock
  | DeviceUnlock | DeviceEnableSrq | DeviceDoCmd | DestroyLink
  | CreateIntrChan | DestroyIntrChan | DeviceIntrSrq
deriving Repr, DecidableEq

/-- The discriminant values assigned in the source (`#[repr(u8)]`). -/
def RpcRequest.toNat : RpcRequest → Nat
  | .DeviceAbort => 1
  | .CreateLink => 10
  | .DeviceWrite => 11
  | .DeviceRead => 12
  | .DeviceReadStb => 13
  | .DeviceTrigger => 14
  | .DeviceClear => 15
  | .DeviceError => 16
  | .DeviceLocal => 17
  | .DeviceLock => 18
  | .DeviceUnlock => 19
  | .DeviceEnableSrq => 20
  | .DeviceDoCmd => 22
  | .DestroyLink => 23
  | .CreateIntrChan => 25
  | .DestroyIntrChan => 26
  | .DeviceIntrSrq => 30

/-- Model of `RpcDeviceErrorCode`. -/
inductive RpcDeviceErrorCode where
  | NoError | SyntaxError | DeviceNotAccessible | InvalidLinkIdentifier
  | ParameterError | ChannelNotEstablished | OperationNotSupported
  | OutOfResources | DeviceLockedByAnotherLink | NoLockHeldByThisLink
  | IoTimeout | IoError | InvalidAddress | Abort | ChannelAlreadyEstablished
  | Unknown : Nat → RpcDeviceErrorCode
deriving Repr, DecidableEq

/-- Model of `RpcOperationFlags`; the source field `end` is spelled `endf` here
(`end` is a Lean keyword). -/
structure RpcOperationFlags where
  wait_lock : Bool
  endf : Bool
  termchr_set : Bool
deriving Repr, DecidableEq

/-- Model of `RpcOperationFlags::pack_xdr`: bit 0 = wait_lock, bit 3 = end,
bit 7 = termchr_set, packed as a 32-bit big-endian word. -/
def RpcOperationFlags.pack_xdr (f : RpcOperationFlags) (out : List Byte) : List Byte :=
  let flags : Nat := 0
  let flags := if f.wait_lock then flags ||| (1 <<< 0) else flags
  let flags := if f.endf then flags ||| (1 <<< 3) else flags
  let flags := if f.termchr_set then flags ||| (1 <<< 7) else flags
  packU32 flags out

/-- Model of `RpcRequestDeviceWrite`. -/
structure RpcRequestDeviceWrite where
  lid : Int
  io_timeout : Nat
  lock_timeout : Nat
  flags : RpcOperationFlags
  data : List Byte
deriving Repr, DecidableEq

/-- Model of `RpcRequestDeviceWrite::pack_xdr` (field order as in the source). -/
def RpcRequestDeviceWrite.pack_xdr (r : RpcRequestDeviceWrite) (out : List Byte) : List Byte :=
  packOpaqueData r.data
    (RpcOperationFlags.pack_xdr r.flags
      (packU32 r.lock_timeout (packU32 r.io_timeout (packI32 r.lid out))))

/-- Model of `RpcDeviceReadReason`: reason bits of a `DeviceRead` reply
(bit 0 = reqcnt, bit 1 = chr, bit 2 = end; `end` spelled `endf`). -/
structure RpcDeviceReadReason where
  reqcnt : Bool
  chr : Bool
  endf : Bool
deriving Repr, DecidableEq

/-- Model of `RpcResponseDeviceRead`. -/
structure RpcResponseDeviceRead where
  error : RpcDeviceErrorCode
  reason : RpcDeviceReadReason
  data : List Byte
deriving Repr, DecidableEq

/-! ## VXI-11 device link — `src/src/protocol/vxi11/mod.rs` -/

/-- Model of `LOCK_TIMEOUT` (used for both lock and I/O timeouts). -/
def LOCK_TIMEOUT : Nat := 10000

/-- Model of `READ_SIZE`: max amount read in a single transaction. -/
def READ_SIZE : Nat := 65536

/-- The state of a `VxiClientLink` (the shared ONC client handle carries no
data relevant to the claims). -/
structure VxiClientLink where
  link_id : Int
  max_recv_size : Nat
deriving Repr, DecidableEq

/-- Model of `usize::div_ceil`. -/
def divCeil (a b : Nat) : Nat := (a + b - 1) / b

/-- Rust `slice::chunks(n)`: chunks of `n` elements, the last possibly
shorter.  (`chunks` panics for `n = 0`; this model returns `[]` there and
every use below assumes `0 < n`.) -/
def listChunks (n : Nat) (l : List Byte) : List (List Byte) :=
  if _h : n = 0 ∨ l = [] then []
  else l.take n :: listChunks n (l.drop n)
termination_by l.length
decreasing_by
  simp only [not_or] at _h
  have hn : 0 < n := Nat.pos_of_ne_zero _h.1
  have hl : 0 < l.length := List.length_pos.mpr _h.2
  simpa using Nat.sub_lt hl hn

/-- The `RpcRequestDeviceWrite` built by `VxiClientLink::write_packet` for
one chunk (the emission; the length guard and reply check of
`write_packet` are not reached on the chunks produced by `write`). -/
def VxiClientLink.write_packet_req (link : VxiClientLink) (data : List Byte)
    (is_last : Bool) : RpcRequestDeviceWrite :=
  { lid := link.link_id
    io_timeout := LOCK_TIMEOUT
    lock_timeout := LOCK_TIMEOUT
    flags := { wait_lock := false, endf := is_last, termchr_set := false }
    data := data }

/-- Model of `VxiClientLink::write`: the sequence of `DeviceWrite` requests it
issues — `data.chunks(max_recv_size)`, enumerated, the chunk at index
`n_chunks - 1` flagged as last. -/
def VxiClientLink.write_reqs (link : VxiClientLink) (data : List Byte) :
    List RpcRequestDeviceWrite :=
  let n_chunks := divCeil data.length link.max_recv_size
  (listChunks link.max_recv_size data).enum.map
    (fun p => link.write_packet_req p.2 (decide (p.1 = n_chunks - 1)))

/-- Model of `VxiClientLink::recv`, driven by the sequence of `DeviceRead` replies
the server produces (one per `recv_packet` transaction): append each
reply's data, stopping after the first whose reason has `end` set; a
non-`NoError` code is fatal.  `none` models the case where the supplied
reply sequence runs out before an END — the code would keep issuing
further read transactions. -/
def recv_loop : List RpcResponseDeviceRead → Option (Except Err (List Byte))
  | [] => none
  | r :: rest =>
    if r.error ≠ .NoError then some (.error (.Unspecified "Failed to read from device"))
    else if r.reason.endf then some (.ok r.data)
    else
      match recv_loop rest with
      | none => none
      | some (.error e) => some (.error e)
      | some (.ok tail) => some (.ok (r.data ++ tail))

/-- The `link` field of `ScpiVxiProtocol` (`Some` when connected). -/
structure ScpiVxiProtocolSt where
  link : Option VxiClientLink
deriving Repr, DecidableEq

/-- Model of `ScpiVxiProtocol::disconnect`, whose entire body in the source is
`/* TODO */ Ok(())`: it returns `Ok(())`, leaves the state untouched, and
issues no RPC calls (in particular no `DestroyLink`).  The third component
lists the VXI procedures invoked during the call. -/
def ScpiVxiProtocol.disconnect (st : ScpiVxiProtocolSt) :
    Except Err Unit × ScpiVxiProtocolSt × List RpcRequest :=
  (.ok (), st, [])

/-! ## ONC/RPC client — `src/src/protocol/vxi11/onc.rs` -/

/-- The constant `LAST_MESSAGE_MARKER`: bit 31 of the record-marker word. -/
def LAST_MESSAGE_MARKER : Nat := 2147483648

/-- A decoded `RpcMessage` as seen by `read_response` after
`RpcMessage::unpack`: its `xid` and (abstractly) its body bytes.  Records
whose payload fails to decode abort the call via `?`; the claims below
quantify over streams of decodable records, so the record is modelled
already decoded. -/
structure RpcMsgView where
  xid : Nat
  body : List Byte
deriving Repr, DecidableEq

/-- An incoming framed record: the LAST bit of its record-marker header
(`header & LAST_MESSAGE_MARKER != 0`) and the decoded message. -/
structure OncRecord where
  is_last : Bool
  msg : RpcMsgView
deriving Repr, DecidableEq

/-- Model of `OncClient::read_response`, driven by the stream of incoming records:
a record whose xid equals `last_xid` is pushed, and ends the loop when its
LAST bit is set; any other record is logged and discarded — even when its
LAST bit is set.  `none` models exhausting the supplied records without
the loop breaking (the code would block on the next socket read). -/
def read_response (last_xid : Nat) : List OncRecord → Option (List RpcMsgView)
  | [] => none
  | r :: rest =>
    if r.msg.xid = last_xid then
      if r.is_last then some [r.msg]
      else
        match read_response last_xid rest with
        | none => none
        | some ms => some (r.msg :: ms)
    else read_response last_xid rest

/-- The claim's reading of `read_response` (''stops reading at the first
record whose LAST-fragment bit is set''): reading ends at the first record
with the LAST bit, whether or not its xid matches; matching messages among
the records read are returned in order.  Stated for comparison with
`read_response`; it is NOT what the source does. -/
def read_response_claim (last_xid : Nat) : List OncRecord → Option (List RpcMsgView)
  | [] => none
  | r :: rest =>
    let keep := r.msg.xid = last_xid
    if r.is_last then some (if keep then [r.msg] else [])
    else
      match read_response_claim last_xid rest with
      | none => none
      | some ms => some (if keep then r.msg :: ms else ms)

/-- The `last_xid` state of an `OncClient`. -/
structure OncClientSt where
  last_xid : Nat
deriving Repr, DecidableEq

/-- Model of `OncClient::request`, driven by the incoming record stream: frames and
writes the call (not modelled — the claim concerns the receive side), runs
`read_response` against the current `last_xid`, then increments `last_xid`
(`u32` arithmetic).  `none` models a call that never returns because
`read_response` blocks. -/
def OncClient.request_model (st : OncClientSt) (incoming : List OncRecord) :
    Option (List RpcMsgView × OncClientSt) :=
  match read_response st.last_xid incoming with
  | none => none
  | some ms => some (ms, { last_xid := (st.last_xid + 1) % 4294967296 })

/-! ## Siglent waveform decoding —
`src/src/equipment/drivers/oscilloscope_siglent.rs` -/

/-- Model of `b as i8`: signed value of a byte. -/
def i8FromByte (b : Byte) : Int :=
  if b < 128 then (b : Int) else (b : Int) - 256

/-- Model of `i16::from_le_bytes([b0, b1])`. -/
def i16FromLeBytes (b0 b1 : Byte) : Int :=
  let u := b0 + 256 * b1
  if u < 32768 then (u : Int) else (u : Int) - 65536

/-- The `WaveDescData` fields consumed by
`SiglentOscilloscopeChannel::read_samples`; the `f32` fields are modelled
as exact rationals. -/
structure WaveDescFields where
  comm_type : Nat
  vert_gain : ℚ
  vert_offset : ℚ
  code_per_div : ℚ
  attenuation : ℚ
deriving Repr, DecidableEq

/-- The word (`comm_type = 1`) decoding loop of `read_samples`:
`raw.chunks(2)` with `i16::from_le_bytes(s.try_into().unwrap())` — a
trailing 1-byte chunk makes the `unwrap` panic. -/
def decodeWords (scale offset : ℚ) : List Byte → PanicOr (List ℚ)
  | [] => .value []
  | [_] => .panicked
  | b0 :: b1 :: rest =>
    match decodeWords scale offset rest with
    | .panicked => .panicked
    | .value tail => .value (((i16FromLeBytes b0 b1 : ℚ) * scale - offset) :: tail)

/-- The sample-decoding core of `read_samples` on a received raw buffer:
`scale = (attenuation * vert_gain) / code_per_div`, `offset = vert_offset`;
`comm_type = 0` maps each byte as `i8`, otherwise pairs of bytes decode as
little-endian `i16`; each sample is `s * scale - offset`. -/
def read_samples_decode (wd : WaveDescFields) (raw : List Byte) : PanicOr (List ℚ) :=
  let scale := (wd.attenuation * wd.vert_gain) / wd.code_per_div
  let offset := wd.vert_offset
  if wd.comm_type = 0 then
    .value (raw.map (fun s => (i8FromByte s : ℚ) * scale - offset))
  else
    decodeWords scale offset raw

/-- The field widths, in bytes and in declaration order, of the
`#[repr(C, packed(2))]` struct `WaveDescData`.  Every field has size and
alignment at most requiring 2-byte packing and every offset below is even,
so `size_of::<WaveDescData>()` is exactly their sum. -/
def waveDescFieldSizes : List Nat :=
  [16, 16, 2, 2, 4, 20, 4, 12, 16, 24, 4, 12, 4, 4, 4, 4, 4, 4,
   4, 4, 4, 4, 2, 2, 4, 8, 136, 2, 2, 4, 2, 2, 8, 2]

/-- Model of `std::mem::size_of::<WaveDescData>()`. -/
def waveDescSize : Nat := waveDescFieldSizes.sum

/-- Model of `WaveDescData::from_bytes`: rejects any input whose length differs from
`size_of::<WaveDescData>()` with `Error::Unspecified`, otherwise
reinterprets the bytes as the packed struct (modelled as the raw 346-byte
record). -/
def WaveDescData.from_bytes (data : List Byte) : Except Err (List Byte) :=
  if data.length ≠ waveDescSize then
    .error (.Unspecified "Attempt to populate WaveDescData from data of wrong size!")
  else .ok data

/-! ## URI dispatcher — `src/src/protocol/scpi.rs` (`scpi_from_uri`) -/

/-- URI text is modelled as a list of characters. -/
abbrev Str := List Char

/-- Model of `PORTMAP_PORT` from `src/src/protocol/vxi11/portmap.rs`. -/
def PORTMAP_PORT : Nat := 111

/-- Model of `str::strip_prefix` (prefix given first). -/
def stripPfx : Str → Str → Option Str
  | [], s => some s
  | _ :: _, [] => none
  | p :: ps, c :: cs => if c = p then stripPfx ps cs else none

/-- Model of `str::split_once(c)`. -/
def splitOnceCh (c : Char) : Str → Option (Str × Str)
  | [] => none
  | x :: xs =>
    if x = c then some ([], xs)
    else
      match splitOnceCh c xs with
      | none => none
      | some (a, b) => some (x :: a, b)

/-- Model of `str::split(c)` (always at least one piece; `""` splits to `[""]`). -/
def splitOnCh (c : Char) : Str → List Str
  | [] => [[]]
  | x :: xs =>
    let r := splitOnCh c xs
    if x = c then [] :: r
    else
      match r with
      | [] => [[x]]
      | h :: t => (x :: h) :: t

/-- Digit-run accumulator for `str::parse::<u32>`. -/
def parseDigitsAux : Str → Nat → Option Nat
  | [], acc => some acc
  | c :: cs, acc =>
    if c.isDigit then parseDigitsAux cs (acc * 10 + (c.toNat - 48)) else none

/-- Model of `str::parse::<u32>`: optional leading `+`, then at least one digit,
rejecting values that do not fit in 32 bits. -/
def parse_u32 (s : Str) : Option Nat :=
  let t := match s with
    | '+' :: rest => rest
    | other => other
  match t with
  | [] => none
  | _ =>
    match parseDigitsAux t 0 with
    | none => none
    | some n => if n < 4294967296 then some n else none

/-- Host addresses are opaque to the claims. -/
abbrev SockAddr := String

/-- Outcome of `to_socket_addrs()` followed by `.next()`: the call itself
may fail with an `io::Error` (propagated by `?` as `Error::IoError`), or
yield a (possibly empty) address list. -/
inductive ResolveOutcome where
  | ioErr : ResolveOutcome
  | addrs : List SockAddr → ResolveOutcome

/-- Which transport `scpi_from_uri` constructed (its `connect` side effects
are beyond the parsing behavior the claim is about; every error the claim
names is returned before any connect). -/
inductive ScpiChoice where
  | vxi : SockAddr → ScpiChoice
  | tcp : SockAddr → ScpiChoice
  | serial : Str → Nat → ScpiChoice
deriving Repr, DecidableEq

/-- The `for arg in args` loop of the `serial:` branch: each argument must
be `key=value`; the only recognized key is `baud`, whose value must parse
as `u32`; violations yield `Error::InvalidArgument`. -/
def serialArgsLoop : List Str → Nat → Except Err Nat
  | [], baud => .ok baud
  | arg :: rest, _baud =>
    match splitOnceCh '=' arg with
    | none =>
      .error (.InvalidArgument ("Improperly formatted URI argument '" ++ String.mk arg ++ "'"))
    | some (key, value) =>
      if key = "baud".toList then
        match parse_u32 value with
        | none => .error (.InvalidArgument ("Invalid value for baud rate: " ++ String.mk value))
        | some b => serialArgsLoop rest b
      else .error (.InvalidArgument ("Unsupported argument '" ++ String.mk key ++ "' in URI"))

/-- Path/argument split of the `serial:` branch
(`path.split_once('?')`, arguments split on `&`). -/
def serialSplit (path : Str) : Str × List Str :=
  match splitOnceCh '?' path with
  | some (p, a) => (p, splitOnCh '&' a)
  | none => (path, [])

/-- Model of `scpi_from_uri`, with hostname resolution supplied as the `resolve`
oracle: `vxi11://` appends `:111` when the remainder has no `':'` and
resolves; `tcp://` resolves; `serial:` parses its query arguments; any
other scheme is `InvalidArgument`.  An exhausted resolver iterator yields
`Error::Unspecified("Could not resolve ...")`; a resolver `io::Error`
propagates as `Error::IoError`. -/
def scpi_from_uri_model (resolve : Str → ResolveOutcome) (uri : Str) :
    Except Err ScpiChoice :=
  match stripPfx "vxi11://".toList uri with
  | some socket =>
    let socket := if socket.contains ':' then socket
                  else socket ++ (":" ++ toString PORTMAP_PORT).toList
    match resolve socket with
    | .ioErr => .error .IoError
    | .addrs [] => .error (.Unspecified ("Could not resolve '" ++ String.mk socket ++ "'"))
    | .addrs (a :: _) => .ok (.vxi a)
  | none =>
    match stripPfx "tcp://".toList uri with
    | some socket =>
      match resolve socket with
      | .ioErr => .error .IoError
      | .addrs [] => .error (.Unspecified ("Could not resolve '" ++ String.mk socket ++ "'"))
      | .addrs (a :: _) => .ok (.tcp a)
    | none =>
      match stripPfx "serial:".toList uri with
      | some path =>
        let pa := serialSplit path
        match serialArgsLoop pa.2 9600 with
        | .error e => .error e
        | .ok baud => .ok (.serial pa.1 baud)
      | none => .error (.InvalidArgument ("Unknown scheme in '" ++ String.mk uri ++ "'"))

/-- A serial query argument the `for arg in args` loop rejects: no `'='`,
an unrecognized key, or a `baud` value that does not parse as `u32`. -/
def badSerialArg (arg : Str) : Prop :=
  splitOnceCh '=' arg = none ∨
  ∃ k v, splitOnceCh '=' arg = some (k, v) ∧
    (k ≠ "baud".toList ∨ parse_u32 v = none)

/-! ## Helper lemmas -/

/-- Decoding the big-endian bytes of `x` recovers `x % 2^32`. -/
theorem unpack_u32_bytes (x : Nat) (tail : List Byte) :
    unpack_u32 (u32BeBytes x ++ tail) = .value (.ok (x % 4294967296), tail) := by
  have h : beU32 (x % 4294967296 / 16777216) (x % 4294967296 / 65536 % 256)
      (x % 4294967296 / 256 % 256) (x % 4294967296 % 256) = x % 4294967296 := by
    unfold beU32; omega
  simp [u32BeBytes, unpack_u32, h]

/-- Opaque round-trip, including that the whole packed form is consumed. -/
theorem unpackOpaque_of_pack (b : List Byte) (h : b.length < 4294967296) :
    unpackOpaqueData (packOpaqueData b []) = .value (.ok b, []) := by
  have hmod : b.length % 4294967296 = b.length := Nat.mod_eq_of_lt h
  by_cases h4 : b.length % 4 = 0
  · have hpack : packOpaqueData b [] = u32BeBytes b.length ++ b := by
      simp [packOpaqueData, packU32, h4]
    rw [hpack]
    unfold unpackOpaqueData
    rw [unpack_u32_bytes, hmod]
    have hpad : padOf b.length = 0 := by simp [padOf, h4]
    simp [hpad, List.take_length, List.drop_length]
  · have hpack : packOpaqueData b [] =
        u32BeBytes b.length ++ (b ++ List.replicate (4 - b.length % 4) 0) := by
      simp [packOpaqueData, packU32, h4, List.append_assoc]
    rw [hpack]
    unfold unpackOpaqueData
    rw [unpack_u32_bytes, hmod]
    have hpad : padOf b.length = 4 - b.length % 4 := by simp [padOf, h4]
    have hlen : (b ++ List.replicate (4 - b.length % 4) 0).length =
        b.length + (4 - b.length % 4) := by simp
    simp only [hpad, hlen, lt_irrefl, if_false]
    rw [List.take_left, List.drop_left]
    simp

/-- Lemma: `slice::chunks(n)` produces `ceil(len / n)` chunks. -/
theorem listChunks_length (n : Nat) (hn : 0 < n) (l : List Byte) :
    (listChunks n l).length = divCeil l.length n := by
  rw [listChunks]
  by_cases hl : l = []
  · subst hl
    rw [dif_pos (Or.inr rfl)]
    have h0 : (n - 1) / n = 0 := Nat.div_eq_of_lt (by omega)
    simp [divCeil, h0]
  · rw [dif_neg (by push_neg; exact ⟨by omega, hl⟩)]
    have hm : 0 < l.length := List.length_pos.mpr hl
    have hrec := listChunks_length n hn (l.drop n)
    simp only [List.length_cons, hrec, List.length_drop]
    unfold divCeil
    rcases le_or_lt l.length n with hle | hgt
    · have h1 : (l.length - n + n - 1) / n = 0 := Nat.div_eq_of_lt (by omega)
      have h2 : (l.length + n - 1) / n = 1 :=
        Nat.div_eq_of_lt_le (by omega) (by omega)
      omega
    · have h1 : l.length - n + n - 1 = l.length - 1 := by omega
      have h2 : l.length + n - 1 = l.length - 1 + n := by omega
      rw [h1, h2, Nat.add_div_right _ hn]
termination_by l.length
decreasing_by simp only [List.length_drop]; omega

/-- Every chunk of `slice::chunks(n)` has at most `n` elements. -/
theorem listChunks_le (n : Nat) (l : List Byte) :
    ∀ c ∈ listChunks n l, c.length ≤ n := by
  intro c hc
  rw [listChunks] at hc
  by_cases h : n = 0 ∨ l = []
  · rw [dif_pos h] at hc
    simp at hc
  · rw [dif_neg h] at hc
    push_neg at h
    rcases List.mem_cons.mp hc with rfl | hc2
    · simp [List.length_take]
    · exact listChunks_le n (l.drop n) c hc2
termination_by l.length
decreasing_by
  simp only [List.length_drop]
  have hn : n ≠ 0 := fun e => h (Or.inl e)
  have hl : l ≠ [] := fun e => h (Or.inr e)
  have := List.length_pos.mpr hl
  omega

/-- Concatenating the chunks of `slice::chunks(n)` (with `0 < n`) restores
the original slice. -/
theorem listChunks_join (n : Nat) (hn : 0 < n) (l : List Byte) :
    (listChunks n l).flatten = l := by
  rw [listChunks]
  by_cases hl : l = []
  · subst hl
    rw [dif_pos (Or.inr rfl)]
    rfl
  · rw [dif_neg (by push_neg; exact ⟨by omega, hl⟩)]
    rw [List.flatten_cons, listChunks_join n hn (l.drop n), List.take_append_drop]
termination_by l.length
decreasing_by
  simp only [List.length_drop]
  have := List.length_pos.mpr hl
  omega

/-! ## Claims -/

/-- C4: XDR pack/unpack round-trips — opaque byte sequences round-trip with
the whole packed form (prefix, payload, padding) consumed; the packed form
has length divisible by 4; and `u32`, `i32`, `bool` and `String` values
round-trip through their pack/unpack pair (`bool` is carried as the u32
0/1, recovered by a zero test; a `String` is its UTF-8 bytes, packed as
opaque). -/
theorem C4_xdr_roundtrip :
    (∀ b : List Byte, b.length < 4294967296 →
      unpackOpaqueData (packOpaqueData b []) = .value (.ok b, [])) ∧
    (∀ b : List Byte, (packOpaqueData b []).length % 4 = 0) ∧
    (∀ x : Nat, x < 4294967296 →
      unpack_u32 (packU32 x []) = .value (.ok x, [])) ∧
    (∀ x : Int, -2147483648 ≤ x → x < 2147483648 →
      unpack_i32 (packI32 x []) = .value (.ok x, [])) ∧
    (∀ b : Bool, unpack_u32 (packBool b []) = .value (.ok (if b then 1 else 0), []) ∧
      (((if b then (1 : Nat) else 0) ≠ 0) ↔ b = true)) ∧
    (∀ s : List Byte, s.length < 4294967296 →
      unpackOpaqueData (packString s []) = .value (.ok s, [])) := by
  have hu32 : ∀ x : Nat, x < 4294967296 →
      unpack_u32 (packU32 x []) = .value (.ok x, []) := by
    intro x hx
    have := unpack_u32_bytes x []
    simpa [packU32, Nat.mod_eq_of_lt hx] using this
  refine ⟨unpackOpaque_of_pack, ?_, hu32, ?_, ?_, ?_⟩
  · intro b
    by_cases h4 : b.length % 4 = 0
    · simp [packOpaqueData, packU32, u32BeBytes, h4]
      omega
    · simp [packOpaqueData, packU32, u32BeBytes, h4]
      omega
  · intro x hlo hhi
    have hx : toTwos32 x < 4294967296 := by
      unfold toTwos32; omega
    have h1 : unpack_i32 (packI32 x []) =
        .value (.ok (beI32 (toTwos32 x % 4294967296 / 16777216)
          (toTwos32 x % 4294967296 / 65536 % 256)
          (toTwos32 x % 4294967296 / 256 % 256)
          (toTwos32 x % 4294967296 % 256)), []) := by
      simp [packI32, u32BeBytes, unpack_i32]
    rw [h1]
    have hbe : beU32 (toTwos32 x % 4294967296 / 16777216)
        (toTwos32 x % 4294967296 / 65536 % 256)
        (toTwos32 x % 4294967296 / 256 % 256)
        (toTwos32 x % 4294967296 % 256) = toTwos32 x := by
      unfold beU32; omega
    have hval : beI32 (toTwos32 x % 4294967296 / 16777216)
        (toTwos32 x % 4294967296 / 65536 % 256)
        (toTwos32 x % 4294967296 / 256 % 256)
        (toTwos32 x % 4294967296 % 256) = x := by
      unfold beI32
      rw [hbe]
      show (if toTwos32 x < 2147483648 then (toTwos32 x : Int)
        else (toTwos32 x : Int) - 4294967296) = x
      unfold toTwos32
      split <;> omega
    rw [hval]
  · intro b
    refine ⟨?_, by cases b <;> simp⟩
    have h01 : (if b then (1 : Nat) else 0) < 4294967296 := by cases b <;> simp
    simpa [packBool] using hu32 (if b then 1 else 0) h01
  · exact fun s hs => unpackOpaque_of_pack s hs

/-- C4 witness: the round-trips at concrete inputs. -/
theorem C4_xdr_roundtrip_witness :
    unpackOpaqueData (packOpaqueData [1, 2, 3] []) = .value (.ok [1, 2, 3], []) ∧
    unpack_u32 (packU32 3735928559 []) = .value (.ok 3735928559, []) ∧
    unpack_i32 (packI32 (-5) []) = .value (.ok (-5), []) ∧
    unpackOpaqueData (packString [105, 110, 115, 116, 48] []) =
      .value (.ok [105, 110, 115, 116, 48], []) :=
  ⟨C4_xdr_roundtrip.1 [1, 2, 3] (by norm_num),
   C4_xdr_roundtrip.2.2.1 3735928559 (by norm_num),
   C4_xdr_roundtrip.2.2.2.1 (-5) (by norm_num) (by norm_num),
   C4_xdr_roundtrip.2.2.2.2.2 [105, 110, 115, 116, 48] (by norm_num)⟩

/-- C5: on any buffer holding fewer than 4 bytes, `unpack_u32`,
`unpack_i32` and `unpack_u16` do NOT return a `BadResponse` error value —
`src.drain(0..4)` panics, so the short-input decode is not total and the
source's `BadResponse("Not enough bytes ...")` branch is unreachable.
(The claim, matching the spec, says a `BadResponse` error is returned.) -/
theorem C5_short_input_panics (src : List Byte) (h : src.length < 4) :
    unpack_u32 src = .panicked ∧ unpack_i32 src = .panicked ∧
    unpack_u16 src = .panicked := by
  match src with
  | [] => exact ⟨rfl, rfl, rfl⟩
  | [_] => exact ⟨rfl, rfl, rfl⟩
  | [_, _] => exact ⟨rfl, rfl, rfl⟩
  | [_, _, _] => exact ⟨rfl, rfl, rfl⟩
  | _ :: _ :: _ :: _ :: _ => simp only [List.length_cons] at h; omega

/-- C5 witness: a 1-byte buffer. -/
theorem C5_short_input_panics_witness :
    ([0] : List Byte).length < 4 ∧ unpack_u32 [0] = .panicked :=
  ⟨by norm_num, (C5_short_input_panics [0] (by norm_num)).1⟩

/-- C10: when `unpack_opaque` fails because the buffer is shorter than the
declared payload length plus padding, the 4-byte length prefix has already
been drained and everything else is left in place: the buffer after the
call is `src.drop 4`. -/
theorem C10_unpack_opaque_partial (src : List Byte) (h4 : 4 ≤ src.length)
    (hshort : src.length - 4 < declaredLenOf src + padOf (declaredLenOf src)) :
    unpackOpaqueData src =
      .value (.error (.BadResponse "Not enough bytes to read opaque type"), src.drop 4) := by
  match src with
  | [] => simp at h4
  | [_] => simp at h4
  | [_, _] => simp at h4
  | [_, _, _] => simp at h4
  | b0 :: b1 :: b2 :: b3 :: rest =>
    have hd : declaredLenOf (b0 :: b1 :: b2 :: b3 :: rest) = beU32 b0 b1 b2 b3 := rfl
    rw [hd] at hshort
    have hlen : (b0 :: b1 :: b2 :: b3 :: rest).length - 4 = rest.length := by
      simp only [List.length_cons]; omega
    rw [hlen] at hshort
    unfold unpackOpaqueData
    rw [show unpack_u32 (b0 :: b1 :: b2 :: b3 :: rest) =
      .value (.ok (beU32 b0 b1 b2 b3), rest) from rfl]
    simp only [if_pos hshort]
    rfl

/-- C10 witness: declared length 5 with only 2 payload bytes present. -/
theorem C10_unpack_opaque_partial_witness :
    4 ≤ ([0, 0, 0, 5, 1, 2] : List Byte).length ∧
    ([0, 0, 0, 5, 1, 2] : List Byte).length - 4 <
      declaredLenOf [0, 0, 0, 5, 1, 2] + padOf (declaredLenOf [0, 0, 0, 5, 1, 2]) ∧
    unpackOpaqueData [0, 0, 0, 5, 1, 2] =
      .value (.error (.BadResponse "Not enough bytes to read opaque type"), [1, 2]) :=
  ⟨by norm_num, by decide,
   C10_unpack_opaque_partial [0, 0, 0, 5, 1, 2] (by norm_num) (by decide)⟩

/-- The request at index `i` of `VxiClientLink::write`. -/
theorem write_reqs_get (link : VxiClientLink) (p : List Byte)
    (i : Nat) (h : i < (link.write_reqs p).length) :
    (link.write_reqs p).get ⟨i, h⟩ =
      link.write_packet_req
        ((listChunks link.max_recv_size p).get ⟨i, by
          have := h; simpa [VxiClientLink.write_reqs] using this⟩)
        (decide (i = divCeil p.length link.max_recv_size - 1)) := by
  have hi : i < (listChunks link.max_recv_size p).length := by
    have := h; simpa [VxiClientLink.write_reqs] using this
  simp [VxiClientLink.write_reqs, List.get_eq_getElem, List.getElem_map,
    List.getElem_enum]

/-- C1: `VxiClientLink::write(p)` with `max_recv_size = M > 0` issues
`ceil(|p| / M)` `DeviceWrite` requests; each carries at most `M` bytes;
the end flag is set on exactly the last request (on the wire, its packed
flag word is 8 = bit 3, and 0 on every other request); and the chunks
concatenate back to `p`.  (`DeviceWrite` is procedure 11.) -/
theorem C1_write_chunking (p : List Byte) (link : VxiClientLink)
    (hM : 0 < link.max_recv_size) :
    (link.write_reqs p).length = divCeil p.length link.max_recv_size ∧
    (∀ r ∈ link.write_reqs p, r.data.length ≤ link.max_recv_size) ∧
    (∀ i : Fin (link.write_reqs p).length,
      (((link.write_reqs p).get i).flags.endf = true ↔
        i.val + 1 = (link.write_reqs p).length)) ∧
    ((link.write_reqs p).map (fun r => r.data)).flatten = p ∧
    (∀ r ∈ link.write_reqs p,
      RpcOperationFlags.pack_xdr r.flags [] =
        u32BeBytes (if r.flags.endf then 8 else 0)) ∧
    RpcRequest.DeviceWrite.toNat = 11 := by
  have hlen : (link.write_reqs p).length =
      (listChunks link.max_recv_size p).length := by
    simp [VxiClientLink.write_reqs]
  have hclen := listChunks_length link.max_recv_size hM p
  have hmemform : ∀ r ∈ link.write_reqs p,
      ∃ i : Fin (link.write_reqs p).length, (link.write_reqs p).get i = r := by
    intro r hr
    exact List.mem_iff_get.mp hr
  refine ⟨hlen.trans hclen, ?_, ?_, ?_, ?_, rfl⟩
  · intro r hr
    obtain ⟨i, hi⟩ := hmemform r hr
    rw [write_reqs_get] at hi
    subst hi
    exact listChunks_le link.max_recv_size p _ (List.get_mem ..)
  · intro i
    obtain ⟨iv, hivlt⟩ := i
    rw [write_reqs_get]
    have hivlt2 : iv < divCeil p.length link.max_recv_size := by
      rw [← hclen, ← hlen]; exact hivlt
    show (decide (iv = divCeil p.length link.max_recv_size - 1) = true) ↔
      iv + 1 = (link.write_reqs p).length
    rw [decide_eq_true_iff, hlen, hclen]
    omega
  · have hdata : ∀ (cs : List (List Byte)) (k nc : Nat),
        (((cs.enumFrom k).map
          (fun q => link.write_packet_req q.2 (decide (q.1 = nc - 1)))).map
            (fun r => r.data)).flatten = cs.flatten := by
      intro cs
      induction cs with
      | nil => intro k nc; rfl
      | cons c rest ih =>
        intro k nc
        simp only [List.enumFrom, List.map_cons, List.flatten_cons, ih]
        rfl
    have := hdata (listChunks link.max_recv_size p) 0
      (divCeil p.length link.max_recv_size)
    calc ((link.write_reqs p).map (fun r => r.data)).flatten
        = (listChunks link.max_recv_size p).flatten := by
          simpa [VxiClientLink.write_reqs, List.enum] using this
      _ = p := listChunks_join link.max_recv_size hM p
  · intro r hr
    obtain ⟨i, hi⟩ := hmemform r hr
    rw [write_reqs_get] at hi
    subst hi
    cases hb : decide (i.val = divCeil p.length link.max_recv_size - 1) <;>
      simp [VxiClientLink.write_packet_req, RpcOperationFlags.pack_xdr, packU32, hb]

/-- C1 witness: a 5-byte payload with `max_recv_size = 2`. -/
theorem C1_write_chunking_witness :
    0 < (⟨7, 2⟩ : VxiClientLink).max_recv_size ∧
    ((⟨7, 2⟩ : VxiClientLink).write_reqs [1, 2, 3, 4, 5]).length =
      divCeil ([1, 2, 3, 4, 5] : List Byte).length 2 ∧
    (((⟨7, 2⟩ : VxiClientLink).write_reqs [1, 2, 3, 4, 5]).map
      (fun r => r.data)).flatten = [1, 2, 3, 4, 5] :=
  ⟨by norm_num,
   (C1_write_chunking [1, 2, 3, 4, 5] ⟨7, 2⟩ (by norm_num)).1,
   (C1_write_chunking [1, 2, 3, 4, 5] ⟨7, 2⟩ (by norm_num)).2.2.2.1⟩

/-- C2: with the server's `DeviceRead` replies `r_1 .. r_k` (`k ≥ 1`) all
`NoError` and the END reason bit set only on `r_k`, `VxiClientLink::recv`
repeats single read transactions until the END reply and returns the
concatenation of the reply data in order. -/
theorem C2_recv_reads_to_end (init : List RpcResponseDeviceRead)
    (last : RpcResponseDeviceRead)
    (herr : ∀ r ∈ init ++ [last], r.error = .NoError)
    (hmid : ∀ r ∈ init, r.reason.endf = false)
    (hlast : last.reason.endf = true) :
    recv_loop (init ++ [last]) =
      some (.ok (((init ++ [last]).map (fun r => r.data)).flatten)) := by
  induction init with
  | nil =>
    have he := herr last (by simp)
    simp [recv_loop, he, hlast]
  | cons r rest ih =>
    have hr : r.error = .NoError := herr r (by simp)
    have hrend : r.reason.endf = false := hmid r (by simp)
    have ihh := ih (fun x hx => herr x (by simp at hx ⊢; tauto))
      (fun x hx => hmid x (List.mem_cons_of_mem _ hx))
    have hstep : recv_loop (r :: (rest ++ [last])) =
        match recv_loop (rest ++ [last]) with
        | none => none
        | some (.error e) => some (.error e)
        | some (.ok tail) => some (.ok (r.data ++ tail)) := by
      rw [recv_loop]
      rw [if_neg (by simp [hr]), if_neg (by simp [hrend])]
    rw [List.cons_append, hstep, ihh]
    simp

/-- C2 witness: two replies, END only on the second. -/
theorem C2_recv_reads_to_end_witness :
    recv_loop [⟨.NoError, ⟨true, false, false⟩, [65, 65]⟩,
               ⟨.NoError, ⟨false, false, true⟩, [66]⟩] =
      some (.ok [65, 65, 66]) := by
  have := C2_recv_reads_to_end [⟨.NoError, ⟨true, false, false⟩, [65, 65]⟩]
    ⟨.NoError, ⟨false, false, true⟩, [66]⟩
    (by intro r hr; simp at hr; rcases hr with rfl | rfl <;> rfl)
    (by intro r hr; simp at hr; subst hr; rfl)
    rfl
  simpa using this

/-- Behavior of `read_response` when the stream is: records `pre` none of which both
matches `x` and has LAST set, then a record `rec` that matches and has
LAST set, then anything: the result is the matching messages among
`pre ++ [rec]`, in arrival order, and `post` is never read. -/
theorem read_response_split (x : Nat) (pre post : List OncRecord) (rec : OncRecord)
    (hrec : rec.is_last = true ∧ rec.msg.xid = x)
    (hpre : ∀ r ∈ pre, ¬(r.is_last = true ∧ r.msg.xid = x)) :
    read_response x (pre ++ rec :: post) =
      some (((pre ++ [rec]).filter
        (fun r => decide (r.msg.xid = x))).map (fun r => r.msg)) := by
  induction pre with
  | nil =>
    rw [List.nil_append, read_response, if_pos hrec.2, hrec.1, if_pos rfl]
    simp [hrec.2]
  | cons r pre' ih =>
    have hr := hpre r (List.mem_cons_self ..)
    have ihh := ih (fun q hq => hpre q (List.mem_cons_of_mem _ hq))
    by_cases hx : r.msg.xid = x
    · have hnl : r.is_last = false := by
        cases hl : r.is_last
        · rfl
        · exact absurd ⟨hl, hx⟩ hr
      rw [List.cons_append, read_response]
      rw [if_pos hx, hnl]
      simp only [Bool.false_eq_true, if_false]
      rw [ihh]
      simp [hx]
    · rw [List.cons_append, read_response, if_neg hx, ihh]
      simp [hx]

/-- C3 counterexample: with `last_xid = 0` and incoming records
(LAST, xid 1) then (LAST, xid 0), reading does NOT stop at the first
LAST-flagged record: `read_response` skips it and returns the second
record's message, while the claim's stop-at-first-LAST reading
(`read_response_claim`) would return nothing. -/
theorem C3_counterexample :
    read_response 0 [⟨true, ⟨1, []⟩⟩, ⟨true, ⟨0, [9]⟩⟩] = some [⟨0, [9]⟩] ∧
    read_response_claim 0 [⟨true, ⟨1, []⟩⟩, ⟨true, ⟨0, [9]⟩⟩] = some [] ∧
    read_response 0 [⟨true, ⟨1, []⟩⟩, ⟨true, ⟨0, [9]⟩⟩] ≠
      read_response_claim 0 [⟨true, ⟨1, []⟩⟩, ⟨true, ⟨0, [9]⟩⟩] :=
  ⟨rfl, rfl, by decide⟩

/-- C3 (amended): `OncClient::request` returns exactly the decoded reply
messages whose xid equals the current `last_xid`, in arrival order,
discarding (with a log) every non-matching message; it stops reading at
the first record that both has the LAST-fragment bit set and carries a
matching xid (a LAST bit on a discarded record does not stop the read);
and on return `last_xid` has been incremented by exactly one (as a
`u32`). -/
theorem C3_request_amended (st : OncClientSt) (pre post : List OncRecord)
    (rec : OncRecord)
    (hrec : rec.is_last = true ∧ rec.msg.xid = st.last_xid)
    (hpre : ∀ r ∈ pre, ¬(r.is_last = true ∧ r.msg.xid = st.last_xid)) :
    OncClient.request_model st (pre ++ rec :: post) =
      some (((pre ++ [rec]).filter
          (fun r => decide (r.msg.xid = st.last_xid))).map (fun r => r.msg),
        { last_xid := (st.last_xid + 1) % 4294967296 }) := by
  unfold OncClient.request_model
  rw [read_response_split st.last_xid pre post rec hrec hpre]

/-- C3 witness: one discarded record, then the matching LAST record. -/
theorem C3_request_amended_witness :
    OncClient.request_model ⟨0⟩ [⟨true, ⟨1, []⟩⟩, ⟨true, ⟨0, [9]⟩⟩] =
      some ([⟨0, [9]⟩], ⟨1⟩) := by
  have := C3_request_amended ⟨0⟩ [⟨true, ⟨1, []⟩⟩] [] ⟨true, ⟨0, [9]⟩⟩
    (by exact ⟨rfl, rfl⟩)
    (by intro r hr; simp at hr; subst hr; simp)
  simpa using this

/-- C6 counterexample: with `comm_type = 1`, `vert_gain = 0.01`,
`vert_offset = 0`, `code_per_div = 25`, `attenuation = 1`, the payload
`00 01 FF FF` does NOT decode to `[4.0e-4, -4.0e-4]`: the first byte pair
is little-endian `256`, not `1`, so the first sample is `0.1024`
(= 64/625), not `4.0e-4` (arithmetic taken exactly). -/
theorem C6_counterexample :
    read_samples_decode ⟨1, 1/100, 0, 25, 1⟩ [0, 1, 255, 255] =
      .value [64/625, -(1/2500)] ∧
    read_samples_decode ⟨1, 1/100, 0, 25, 1⟩ [0, 1, 255, 255] ≠
      .value [4/10000, -(4/10000)] := by
  have h1 : i16FromLeBytes 0 1 = 256 := by norm_num [i16FromLeBytes]
  have h2 : i16FromLeBytes 255 255 = -1 := by norm_num [i16FromLeBytes]
  constructor
  · simp only [read_samples_decode, decodeWords, h1, h2]
    norm_num
  · simp only [read_samples_decode, decodeWords, h1, h2]
    norm_num

/-- C6 (amended): each sample is `s * ((attenuation * vert_gain) /
code_per_div) - vert_offset` with `s` the little-endian `i16` of its byte
pair — so payload `00 01 FF FF` yields `256 * scale = 0.1024` and
`-1 * scale = -4.0e-4`, and the claim's values `4.0e-4, -4.0e-4` are
produced by the payload `01 00 FF FF`. -/
theorem C6_sample_decode_amended :
    read_samples_decode ⟨1, 1/100, 0, 25, 1⟩ [0, 1, 255, 255] =
      .value [(256 : ℚ) * ((1 * (1/100)) / 25) - 0,
              (-1 : ℚ) * ((1 * (1/100)) / 25) - 0] ∧
    read_samples_decode ⟨1, 1/100, 0, 25, 1⟩ [1, 0, 255, 255] =
      .value [4/10000, -(4/10000)] ∧
    ((256 : ℚ) * ((1 * (1/100)) / 25) - 0 = 1024/10000) := by
  have h0 : i16FromLeBytes 1 0 = 1 := by norm_num [i16FromLeBytes]
  have h1 : i16FromLeBytes 0 1 = 256 := by norm_num [i16FromLeBytes]
  have h2 : i16FromLeBytes 255 255 = -1 := by norm_num [i16FromLeBytes]
  refine ⟨?_, ?_, by norm_num⟩
  · simp only [read_samples_decode, decodeWords, h1, h2]
    norm_num
  · simp only [read_samples_decode, decodeWords, h0, h2]
    norm_num

/-- C7 counterexample: a 345-byte input is rejected, but with
`Error::Unspecified`, not the `BadResponse` the claim names. -/
theorem C7_counterexample :
    WaveDescData.from_bytes (List.replicate 345 0) =
      .error (.Unspecified
        "Attempt to populate WaveDescData from data of wrong size!") ∧
    (match WaveDescData.from_bytes (List.replicate 345 0) with
     | .error e => e.isBadResp
     | .ok _ => false) = false := by
  have h : WaveDescData.from_bytes (List.replicate 345 0) =
      .error (.Unspecified
        "Attempt to populate WaveDescData from data of wrong size!") := by
    unfold WaveDescData.from_bytes
    rw [if_pos (by simp only [List.length_replicate]; decide)]
  exact ⟨h, by rw [h]; rfl⟩

/-- C7 (amended): `WaveDescData::from_bytes` rejects every input whose
length is not exactly 346 (= `size_of::<WaveDescData>()`), failing with
`Error::Unspecified` (not `BadResponse`); a wrong-length input is never
accepted. -/
theorem C7_wavedesc_length_guard (data : List Byte) (h : data.length ≠ 346) :
    WaveDescData.from_bytes data =
      .error (.Unspecified
        "Attempt to populate WaveDescData from data of wrong size!") := by
  have hs : waveDescSize = 346 := by decide
  unfold WaveDescData.from_bytes
  rw [hs, if_pos h]

/-- C7 witness: a 10-byte input. -/
theorem C7_wavedesc_length_guard_witness :
    (List.replicate 10 (0 : Byte)).length ≠ 346 ∧
    WaveDescData.from_bytes (List.replicate 10 0) =
      .error (.Unspecified
        "Attempt to populate WaveDescData from data of wrong size!") :=
  ⟨by norm_num, C7_wavedesc_length_guard (List.replicate 10 0) (by norm_num)⟩

/-- C9: `ScpiVxiProtocol::disconnect` is a `/* TODO */` stub: it returns
`Ok(())`, leaves the connection state untouched, and issues no RPC call at
all — in particular no `DestroyLink` — so the device link created at
connect is NOT released at disconnect, contrary to the claim. -/
theorem C9_disconnect_is_noop (st : ScpiVxiProtocolSt) :
    ScpiVxiProtocol.disconnect st = (.ok (), st, []) ∧
    RpcRequest.DestroyLink ∉ (ScpiVxiProtocol.disconnect st).2.2 :=
  ⟨rfl, by simp [ScpiVxiProtocol.disconnect]⟩

/-- C9 witness: a connected state (link id 7, max_recv_size 1500). -/
theorem C9_disconnect_is_noop_witness :
    ScpiVxiProtocol.disconnect ⟨some ⟨7, 1500⟩⟩ = (.ok (), ⟨some ⟨7, 1500⟩⟩, []) :=
  (C9_disconnect_is_noop ⟨some ⟨7, 1500⟩⟩).1

/-- Stripping a prefix off that prefix followed by anything succeeds. -/
theorem stripPfx_append (p s : Str) : stripPfx p (p ++ s) = some s := by
  induction p with
  | nil => rfl
  | cons c cs ih => simp [stripPfx, ih]

/-- The `tcp://` branch of `scpi_from_uri`, as a function of resolution. -/
theorem scpi_tcp_branch (resolve : Str → ResolveOutcome) (s : Str) :
    scpi_from_uri_model resolve ("tcp://".toList ++ s) =
      match resolve s with
      | .ioErr => .error .IoError
      | .addrs [] => .error (.Unspecified ("Could not resolve '" ++ String.mk s ++ "'"))
      | .addrs (a :: _) => .ok (.tcp a) := by
  unfold scpi_from_uri_model
  rw [show stripPfx "vxi11://".toList ("tcp://".toList ++ s) = none from rfl,
    stripPfx_append]

/-- The `vxi11://` branch of `scpi_from_uri`: the default portmap port 111
is appended when the remainder carries no `':'`, then the host is
resolved. -/
theorem scpi_vxi_branch (resolve : Str → ResolveOutcome) (s : Str) :
    scpi_from_uri_model resolve ("vxi11://".toList ++ s) =
      match resolve (if s.contains ':' then s
          else s ++ (":" ++ toString PORTMAP_PORT).toList) with
      | .ioErr => .error .IoError
      | .addrs [] => .error (.Unspecified ("Could not resolve '" ++
          String.mk (if s.contains ':' then s
            else s ++ (":" ++ toString PORTMAP_PORT).toList) ++ "'"))
      | .addrs (a :: _) => .ok (.vxi a) := by
  unfold scpi_from_uri_model
  rw [stripPfx_append]

/-- The `serial:` branch of `scpi_from_uri`, as a function of the argument
loop. -/
theorem scpi_serial_branch (resolve : Str → ResolveOutcome) (p : Str) :
    scpi_from_uri_model resolve ("serial:".toList ++ p) =
      match serialArgsLoop (serialSplit p).2 9600 with
      | .error e => .error e
      | .ok baud => .ok (.serial (serialSplit p).1 baud) := by
  unfold scpi_from_uri_model
  rw [show stripPfx "vxi11://".toList ("serial:".toList ++ p) = none from rfl,
    show stripPfx "tcp://".toList ("serial:".toList ++ p) = none from rfl,
    stripPfx_append]

/-- One step of the serial argument loop on a `key=value` argument. -/
theorem serialArgsLoop_cons_eq (arg : Str) (rest : List Str) (baud : Nat)
    (k v : Str) (hs : splitOnceCh '=' arg = some (k, v)) :
    serialArgsLoop (arg :: rest) baud =
      if k = "baud".toList then
        match parse_u32 v with
        | none =>
          .error (.InvalidArgument ("Invalid value for baud rate: " ++ String.mk v))
        | some b => serialArgsLoop rest b
      else
        .error (.InvalidArgument
          ("Unsupported argument '" ++ String.mk k ++ "' in URI")) := by
  conv_lhs => rw [serialArgsLoop]
  rw [hs]

/-- One step of the serial argument loop on an argument without `'='`. -/
theorem serialArgsLoop_cons_none (arg : Str) (rest : List Str) (baud : Nat)
    (hs : splitOnceCh '=' arg = none) :
    serialArgsLoop (arg :: rest) baud =
      .error (.InvalidArgument
        ("Improperly formatted URI argument '" ++ String.mk arg ++ "'")) := by
  conv_lhs => rw [serialArgsLoop]
  rw [hs]

/-- Every error produced by the serial argument loop is `InvalidArgument`. -/
theorem serialArgsLoop_error_kind (args : List Str) :
    ∀ baud e, serialArgsLoop args baud = .error e → e.isInvalidArg = true := by
  induction args with
  | nil => intro baud e h; simp [serialArgsLoop] at h
  | cons arg rest ih =>
    intro baud e h
    cases hs : splitOnceCh '=' arg with
    | none =>
      rw [serialArgsLoop_cons_none arg rest baud hs] at h
      cases h
      rfl
    | some kv =>
      obtain ⟨k, v⟩ := kv
      rw [serialArgsLoop_cons_eq arg rest baud k v hs] at h
      by_cases hk : k = "baud".toList
      · rw [if_pos hk] at h
        cases hp : parse_u32 v with
        | none =>
          rw [hp] at h
          cases h
          rfl
        | some b =>
          rw [hp] at h
          exact ih b e h
      · rw [if_neg hk] at h
        cases h
        rfl

/-- A successful serial argument loop saw no bad argument. -/
theorem serialArgsLoop_ok_good (args : List Str) :
    ∀ baud b, serialArgsLoop args baud = .ok b →
      ∀ arg ∈ args, ¬ badSerialArg arg := by
  induction args with
  | nil => intro _ _ _ arg h; simp at h
  | cons arg rest ih =>
    intro baud b hok q hq
    cases hs : splitOnceCh '=' arg with
    | none => rw [serialArgsLoop_cons_none arg rest baud hs] at hok; cases hok
    | some kv =>
      obtain ⟨k, v⟩ := kv
      rw [serialArgsLoop_cons_eq arg rest baud k v hs] at hok
      by_cases hk : k = "baud".toList
      · rw [if_pos hk] at hok
        cases hp : parse_u32 v with
        | none => rw [hp] at hok; cases hok
        | some n =>
          rw [hp] at hok
          rcases List.mem_cons.mp hq with rfl | hq2
          · intro hbad
            rcases hbad with hbad | ⟨k2, v2, hkv, hbad⟩
            · rw [hs] at hbad; cases hbad
            · rw [hs] at hkv
              cases hkv
              rcases hbad with hbad | hbad
              · exact hbad hk
              · rw [hp] at hbad; cases hbad
          · exact ih n b hok q hq2
      · rw [if_neg hk] at hok; cases hok

/-- C8 counterexample: for a `tcp://` URI whose hostname resolves to no
socket address, `scpi_from_uri` returns `Error::Unspecified`, not the
`InvalidArgument` the claim names. -/
theorem C8_counterexample :
    scpi_from_uri_model (fun _ => .addrs []) "tcp://nohost:5025".toList =
      .error (.Unspecified "Could not resolve 'nohost:5025'") ∧
    (match scpi_from_uri_model (fun _ => .addrs []) "tcp://nohost:5025".toList with
     | .error e => e.isInvalidArg
     | .ok _ => false) = false := by
  exact ⟨rfl, rfl⟩

/-- C8 (amended): `scpi_from_uri` fails with `InvalidArgument` for unknown
schemes and for malformed serial query arguments (no `'='`, unrecognized
key, or non-numeric baud value, each of which makes the argument loop fail
and only with `InvalidArgument`); an unresolvable hostname instead fails
with `Unspecified` when resolution yields no address, or with the
propagated `IoError` when resolution itself errors. -/
theorem C8_uri_errors_amended (resolve : Str → ResolveOutcome) :
    (∀ uri : Str,
      stripPfx "vxi11://".toList uri = none →
      stripPfx "tcp://".toList uri = none →
      stripPfx "serial:".toList uri = none →
      scpi_from_uri_model resolve uri =
        .error (.InvalidArgument ("Unknown scheme in '" ++ String.mk uri ++ "'"))) ∧
    (∀ s : Str, resolve s = .addrs [] →
      scpi_from_uri_model resolve ("tcp://".toList ++ s) =
        .error (.Unspecified ("Could not resolve '" ++ String.mk s ++ "'"))) ∧
    (∀ s : Str, s.contains ':' = true → resolve s = .addrs [] →
      scpi_from_uri_model resolve ("vxi11://".toList ++ s) =
        .error (.Unspecified ("Could not resolve '" ++ String.mk s ++ "'"))) ∧
    (∀ s : Str, resolve s = .ioErr →
      scpi_from_uri_model resolve ("tcp://".toList ++ s) = .error .IoError) ∧
    (∀ args baud e, serialArgsLoop args baud = .error e → e.isInvalidArg = true) ∧
    (∀ args baud, (∃ arg ∈ args, badSerialArg arg) →
      ∃ e, serialArgsLoop args baud = .error e ∧ e.isInvalidArg = true) ∧
    (∀ p e, serialArgsLoop (serialSplit p).2 9600 = .error e →
      scpi_from_uri_model resolve ("serial:".toList ++ p) = .error e) := by
  refine ⟨?_, ?_, ?_, ?_, ?_, ?_, ?_⟩
  · intro uri h1 h2 h3
    unfold scpi_from_uri_model
    rw [h1, h2, h3]
  · intro s hs
    rw [scpi_tcp_branch, hs]
  · intro s hc hs
    rw [scpi_vxi_branch, if_pos hc, hs]
  · intro s hs
    rw [scpi_tcp_branch, hs]
  · intro args baud e h
    exact serialArgsLoop_error_kind args baud e h
  · intro args baud hbad
    cases hres : serialArgsLoop args baud with
    | ok b =>
      exfalso
      obtain ⟨arg, hmem, harg⟩ := hbad
      exact serialArgsLoop_ok_good args baud b hres arg hmem harg
    | error e =>
      exact ⟨e, rfl, serialArgsLoop_error_kind args baud e hres⟩
  · intro p e h
    rw [scpi_serial_branch, h]

/-- C8 witness: an unknown scheme, an unresolvable `tcp://` host, and a
malformed serial argument. -/
theorem C8_uri_errors_amended_witness :
    scpi_from_uri_model (fun _ => .addrs []) "http://x".toList =
      .error (.InvalidArgument "Unknown scheme in 'http://x'") ∧
    scpi_from_uri_model (fun _ => .addrs [])
        ("tcp://".toList ++ "h:1".toList) =
      .error (.Unspecified "Could not resolve 'h:1'") ∧
    scpi_from_uri_model (fun _ => .addrs [])
        ("serial:".toList ++ "/dev/tty?baud".toList) =
      .error (.InvalidArgument "Improperly formatted URI argument 'baud'") := by
  refine ⟨?_, ?_, ?_⟩
  · exact (C8_uri_errors_amended (fun _ => .addrs [])).1 "http://x".toList rfl rfl rfl
  · exact (C8_uri_errors_amended (fun _ => .addrs [])).2.1 "h:1".toList rfl
  · exact (C8_uri_errors_amended (fun _ => .addrs [])).2.2.2.2.2.2
      "/dev/tty?baud".toList _ rfl

end TestEq
